import Mathlib

/-!
Verification development for the urbrs Vulkan layer.

Each definition below is a shallow embedding of a function or data shape
from the repository sources (file and symbol named in its doc comment).
Machine integers (`u32`, `usize`) are modelled as `Nat`; Vulkan driver
calls that can fail are modelled as explicit oracles passed in as
arguments; `anyhow::Result` is modelled with `Except` over a dedicated
error type per module.
-/

namespace Urbrs

/-! ## Swapchain: extent and image-count selection
(src/urbrs/src/vulkan/swapchain.rs) -/

/-- Model of `ash::vk::Extent2D`: a pair of `u32` dimensions. -/
structure Extent2D where
  width : Nat
  height : Nat
deriving DecidableEq, Repr

/-- The value `u32::MAX`. -/
def U32_MAX : Nat := 4294967295

/-- The fields of `ash::vk::SurfaceCapabilitiesKHR` read by `Swapchain`. -/
structure SurfaceCaps where
  current_extent : Extent2D
  min_image_extent : Extent2D
  max_image_extent : Extent2D
  min_image_count : Nat
  max_image_count : Nat
deriving DecidableEq, Repr

/-- Rust `u32::clamp(lo, hi)` (for `lo ≤ hi`). -/
def clampU32 (x lo hi : Nat) : Nat := min (max x lo) hi

/-- Embedding of `Swapchain::select_swap_extent` (swapchain.rs lines 29-45): if
`current_extent.height == u32::MAX` the window inner size is clamped
component-wise to `[min_image_extent, max_image_extent]`; otherwise
`current_extent` is returned unchanged.  `win` is the window
`inner_size()`. -/
def Swapchain.select_swap_extent (caps : SurfaceCaps) (win : Extent2D) : Extent2D :=
  let current_extent := caps.current_extent
  let min_extent := caps.min_image_extent
  let max_extent := caps.max_image_extent
  if current_extent.height = U32_MAX then
    { width := clampU32 win.width min_extent.width max_extent.width
      height := clampU32 win.height min_extent.height max_extent.height }
  else
    current_extent

/-- The Vulkan "extent is determined by the consumer" sentinel value of
`SurfaceCapabilitiesKHR::currentExtent`: both components are
`0xFFFFFFFF`.  This definition follows the wording of the specification (the
"derive from consumer" sentinel extent), for comparison with what the
source actually tests. -/
def sentinelExtent : Extent2D := { width := U32_MAX, height := U32_MAX }

/-- Embedding of `Swapchain::select_image_count` (swapchain.rs lines 51-63):
`min_image_count + 1`, clamped by `max_image_count` unless the max is 0
(no limit). -/
def Swapchain.select_image_count (caps : SurfaceCaps) : Nat :=
  let desired := caps.min_image_count + 1
  let max_count := caps.max_image_count
  if max_count = 0 then desired else min desired max_count

/-! ## PhysicalDevice: queue-family selection
(src/urbrs/src/vulkan/phys_device.rs) -/

/-- The capability bits of `ash::vk::QueueFamilyProperties::queue_flags`
relevant to this module. -/
structure QueueFamilyProps where
  graphics : Bool
  transfer : Bool
deriving DecidableEq, Repr

/-- Embedding of `PhysicalDevice::get_queue_families_with_flag` (phys_device.rs lines
39-51): indices of the queue families whose flags contain `flag`, in
enumeration order. -/
def get_queue_families_with_flag (families : List QueueFamilyProps)
    (flag : QueueFamilyProps → Bool) : List Nat :=
  ((families.enum).filter (fun p => flag p.2)).map Prod.fst

/-- Embedding of `PhysicalDevice::select_transfer_family` (phys_device.rs lines
71-81): the first transfer-capable family other than the graphics
family, falling back to the graphics family. -/
def PhysicalDevice.select_transfer_family (families : List QueueFamilyProps)
    (graphics_family : Nat) : Nat :=
  (((get_queue_families_with_flag families (fun f => f.transfer)).filter
      (fun f => f != graphics_family)).head?).getD graphics_family

/-- The loop body of `PhysicalDevice::select_present_family`
(phys_device.rs lines 92-107): iterate over the family indices in order;
on a present-capable index equal to the graphics family return it at
once, otherwise remember the index (overwriting the previous one) and
continue.  `acc` is the mutable `present_family` local. -/
def selectPresentGo (canPresent : Nat → Bool) (graphics_family : Nat) :
    List Nat → Option Nat → Option Nat
  | [], acc => acc
  | i :: rest, acc =>
    if canPresent i then
      if graphics_family = i then some graphics_family
      else selectPresentGo canPresent graphics_family rest (some i)
    else selectPresentGo canPresent graphics_family rest acc

/-- Embedding of `PhysicalDevice::select_present_family` (phys_device.rs lines
83-110).  `canPresent i` models the (pure, non-failing) surface query
`get_physical_device_surface_support` for family index `i`;
`num_families` is `queue_families.len()`. -/
def PhysicalDevice.select_present_family (canPresent : Nat → Bool)
    (num_families graphics_family : Nat) : Option Nat :=
  selectPresentGo canPresent graphics_family (List.range num_families) none

/-- Family index `i` exists in the table and its flags contain `flag`. -/
def hasFlagAt (families : List QueueFamilyProps) (flag : QueueFamilyProps → Bool)
    (i : Nat) : Prop :=
  ∃ f, families[i]? = some f ∧ flag f = true

/-! ## Buffer (src/urbrs/src/vulkan/buffer.rs) -/

/-- The view of a `gpu_allocator::vulkan::Allocation` that `Buffer`
uses: `mapped_ptr()` yields the mapped host bytes when the allocation
is host-visible, and `None` otherwise; the byte list stands for the
memory the mapped pointer points at. -/
structure Allocation where
  mapped : Option (List Nat)
deriving DecidableEq, Repr

/-- Embedding of `Buffer` (buffer.rs lines 7-13): declared byte capacity `size` and
the optional bound allocation.  The device handle is irrelevant to the
claims and omitted. -/
structure Buffer where
  size : Nat
  allocation : Option Allocation
deriving DecidableEq, Repr

/-- Embedding of `Buffer::new` (buffer.rs lines 16-35): a fresh buffer has no
allocation. -/
def Buffer.new (size : Nat) : Buffer :=
  { size := size, allocation := none }

/-- Embedding of `Buffer::allocate` (buffer.rs lines 54-68) after a successful
allocator call and memory bind: the allocation becomes bound. -/
def Buffer.allocate (b : Buffer) (alloc : Allocation) : Buffer :=
  { b with allocation := some alloc }

inductive BufferError where
  | sizeMismatch
  | unallocated
deriving DecidableEq, Repr

/-- Outcome of `Buffer::update_mapped_data`: `anyhow::Result` plus the
`unwrap` of `mapped_ptr()`, which aborts when the allocation is not
host-visible. -/
inductive UpdateOutcome where
  | ok
  | err (e : BufferError)
  | panicked
deriving DecidableEq, Repr

/-- Embedding of `Buffer::update_mapped_data::<T>` (buffer.rs lines 88-111).
`data_len` is `data.len()`, `t_size` is `size_of::<T>()`, and `bytes`
is the byte image of the `data` slice.  The size check comes first; the
allocation check second; only then are `self.size` bytes copied over
the mapped region.  The first component of the result is the buffer
after the call (`&mut self`). -/
def Buffer.update_mapped_data (b : Buffer) (data_len t_size : Nat)
    (bytes : List Nat) : Buffer × UpdateOutcome :=
  let data_size := data_len * t_size
  if data_size ≠ b.size then
    (b, .err .sizeMismatch)
  else
    match b.allocation with
    | none => (b, .err .unallocated)
    | some alloc =>
      match alloc.mapped with
      | none => (b, .panicked)
      | some m =>
        ({ b with
            allocation := some { mapped := some (bytes.take b.size ++ m.drop b.size) } },
          .ok)

/-! ## Pipeline (src/urbrs/src/vulkan/pipeline.rs) -/

/-- Embedding of `PipelineBuilder` (pipeline.rs lines 75-86).  Shader bytecode is a
word list; formats, ranges, layouts are opaque handles. -/
structure PipelineBuilder where
  vertex_shader_data : Option (List Nat)
  fragment_shader_data : Option (List Nat)
  color_format : Option Nat
  depth_format : Option Nat
  push_constant_range : Option Nat
  vertex_layout_info : Option Unit
  descriptor_set_layouts : List Nat
deriving DecidableEq, Repr

/-- Embedding of `PipelineBuilder::new` (pipeline.rs lines 89-99). -/
def PipelineBuilder.new : PipelineBuilder :=
  { vertex_shader_data := none
    fragment_shader_data := none
    color_format := none
    depth_format := none
    push_constant_range := none
    vertex_layout_info := none
    descriptor_set_layouts := [] }

def PipelineBuilder.with_vertex_shader_data (b : PipelineBuilder)
    (data : List Nat) : PipelineBuilder :=
  { b with vertex_shader_data := some data }

def PipelineBuilder.with_fragment_shader_data (b : PipelineBuilder)
    (data : List Nat) : PipelineBuilder :=
  { b with fragment_shader_data := some data }

def PipelineBuilder.with_color_format (b : PipelineBuilder) (format : Nat) :
    PipelineBuilder :=
  { b with color_format := some format }

def PipelineBuilder.with_depth_format (b : PipelineBuilder) (format : Nat) :
    PipelineBuilder :=
  { b with depth_format := some format }

/-- The Vulkan calls `build` makes through the device, as oracles:
shader-module compilation for a given word list, pipeline-layout
creation, and graphics-pipeline creation; each yields a handle or a
`vk::Result` error code. -/
structure DeviceOracle where
  create_shader_module : List Nat → Except Nat Nat
  create_pipeline_layout : Except Nat Nat
  create_graphics_pipelines : Except Nat Nat

/-- The distinct failure cases of `PipelineBuilder::build`, one per
`anyhow!` message plus the wrapped underlying `vk::Result`. -/
inductive PipelineBuildError where
  | noVertexShader
  | noFragmentShader
  | noColorFormat
  | noDepthFormat
  | vk (code : Nat)
deriving DecidableEq, Repr

structure Pipeline where
  handle : Nat
  layout : Nat
deriving DecidableEq, Repr

/-- Embedding of `PipelineBuilder::build` (pipeline.rs lines 157-298), keeping the
exact order of the fallible steps: the `ok_or` on the vertex shader
field, then on the fragment shader field, then the two shader-module
creations, then the `ok_or`s on the color and depth formats, then
pipeline-layout creation, then pipeline creation. -/
def PipelineBuilder.build (b : PipelineBuilder) (dev : DeviceOracle) :
    Except PipelineBuildError Pipeline :=
  match b.vertex_shader_data with
  | none => .error .noVertexShader
  | some vertex_shader_data =>
    match b.fragment_shader_data with
    | none => .error .noFragmentShader
    | some fragment_shader_data =>
      match dev.create_shader_module vertex_shader_data with
      | .error code => .error (.vk code)
      | .ok _vertex_shader =>
        match dev.create_shader_module fragment_shader_data with
        | .error code => .error (.vk code)
        | .ok _fragment_shader =>
          match b.color_format with
          | none => .error .noColorFormat
          | some _color_format =>
            match b.depth_format with
            | none => .error .noDepthFormat
            | some _depth_format =>
              match dev.create_pipeline_layout with
              | .error code => .error (.vk code)
              | .ok layout =>
                match dev.create_graphics_pipelines with
                | .error code => .error (.vk code)
                | .ok handle => .ok { handle := handle, layout := layout }

/-! ## Instance (src/urbrs/src/vulkan/instance.rs) -/

/-- Embedding of `Instance::get_unsupported_instance_extensions` (instance.rs lines
65-84): the required extensions for which no available extension of
the same name exists, in required-list order. -/
def Instance.get_unsupported_instance_extensions (required_extensions : List String)
    (extension_props : List String) : List String :=
  required_extensions.filter
    (fun required => (extension_props.find? (fun e => required == e)).isNone)

/-- Embedding of `Instance::get_unsupported_validation_layers` (instance.rs lines
86-105): same shape for validation layers. -/
def Instance.get_unsupported_validation_layers (required_layers : List String)
    (layer_props : List String) : List String :=
  required_layers.filter
    (fun required => (layer_props.find? (fun l => required == l)).isNone)

inductive InstanceError where
  | unsupportedExtensions (names : List String)
  | unsupportedLayers (names : List String)
  | vk (code : Nat)
deriving DecidableEq, Repr

structure InstanceModel where
  validation_enabled : Bool
deriving DecidableEq, Repr

/-- Embedding of `Instance::new` (instance.rs lines 107-207): check all required
extensions (failing with the complete unsupported list), then — in
debug builds (`validation_enabled`) — check all required validation
layers likewise, then create the instance, then (debug builds) the
debug messenger.  The driver calls are the two `Except` oracles. -/
def Instance.new (required_extensions supported_extensions : List String)
    (validation_enabled : Bool)
    (required_layers available_layers : List String)
    (create_instance : Except Nat Unit) (create_messenger : Except Nat Unit) :
    Except InstanceError InstanceModel :=
  let unsupported_extensions :=
    Instance.get_unsupported_instance_extensions required_extensions supported_extensions
  if unsupported_extensions.length > 0 then
    .error (.unsupportedExtensions unsupported_extensions)
  else
    let layer_failure :=
      if validation_enabled then
        let unsupported_layers :=
          Instance.get_unsupported_validation_layers required_layers available_layers
        if unsupported_layers.length > 0 then some unsupported_layers else none
      else none
    match layer_failure with
    | some unsupported_layers => .error (.unsupportedLayers unsupported_layers)
    | none =>
      match create_instance with
      | .error code => .error (.vk code)
      | .ok _ =>
        if validation_enabled then
          match create_messenger with
          | .error code => .error (.vk code)
          | .ok _ => .ok { validation_enabled := true }
        else
          .ok { validation_enabled := false }

/-! ## Renderer frame ring (src/urbrs/src/renderer.rs) -/

/-- The constant `FRAMES_IN_FLIGHT` (renderer.rs line 320). -/
def FRAMES_IN_FLIGHT : Nat := 3

/-- The `Renderer` state relevant to the frame ring (renderer.rs lines
322-344): the pre-allocated `frames` vector (slots are opaque here) and
the current `frame_idx`. -/
structure RendererSt where
  frames : List Unit
  frame_idx : Nat
deriving DecidableEq, Repr

/-- Embedding of `Renderer::new` (renderer.rs lines 406-430): `frames` is built by
mapping over `0..FRAMES_IN_FLIGHT` and `frame_idx` starts at 0. -/
def Renderer.new : RendererSt :=
  { frames := (List.range FRAMES_IN_FLIGHT).map (fun _ => ()), frame_idx := 0 }

/-- Embedding of `Renderer::render` (renderer.rs lines 432-501): look up the current
frame slot (failing if the index is out of range), run `frame.begin`
and `frame.end` — their fallible outcomes are the `begin_ok` / `end_ok`
oracles; every `?` early-return leaves `frame_idx` untouched — and only
after `frame.end` succeeds advance `frame_idx` by one modulo
`FRAMES_IN_FLIGHT`.  The first component is the `Renderer` state after
the call. -/
def Renderer.render (st : RendererSt) (begin_ok end_ok : Bool) :
    RendererSt × Except String Unit :=
  match st.frames[st.frame_idx]? with
  | none => (st, .error "invalid frame idx")
  | some _frame =>
    if begin_ok then
      if end_ok then
        ({ st with frame_idx := (st.frame_idx + 1) % FRAMES_IN_FLIGHT }, .ok ())
      else (st, .error "frame end failed")
    else (st, .error "frame begin failed")

/-- The renderer state after `n` successful `render` calls starting
from `Renderer::new`. -/
def renderTrace : Nat → RendererSt
  | 0 => Renderer.new
  | n + 1 => (Renderer.render (renderTrace n) true true).1

/-! ## Context teardown (src/urbrs/src/vulkan/context.rs)

`Context` is `{ instance: Arc<Instance>, surface: Arc<Surface>,
device: Arc<Device>, swapchain: Arc<Swapchain> }` and has no `Drop`
impl, so dropping it drops the four `Arc`s in field-declaration order.
Dropping an `Arc` decrements the strong count of the object; at zero the
destructor of the object (which destroys its API handle) runs and then its
own `Arc` fields are dropped in their declaration order. -/

/-- The four API objects a `Context` owns. -/
inductive VkObj where
  | inst
  | surf
  | dev
  | swap
deriving DecidableEq, Repr, Fintype

/-- The `Arc` fields each object holds, in struct declaration order:
`Surface { _instance, .. }`, `Device { _instance, .. }`,
`Swapchain { device, _surface, .. }`; `Instance` holds none. -/
def arcFields : VkObj → List VkObj
  | .inst => []
  | .surf => [.inst]
  | .dev => [.inst]
  | .swap => [.dev, .surf]

/-- Drop a worklist of `Arc` references against the strong-count map
`counts`, returning the final counts and the destruction log.  When a
count reaches zero the object is destroyed (logged) and the `Arc`s it
holds are dropped next, depth-first, before the rest of the worklist.
`fuel` bounds the recursion and is structural, so the function
evaluates by reduction; any fuel at least the total number of `Arc`
drops is enough. -/
def dropArcs : Nat → List VkObj → (VkObj → Nat) → ((VkObj → Nat) × List VkObj)
  | 0, _, counts => (counts, [])
  | fuel + 1, l, counts =>
    match l with
    | [] => (counts, [])
    | o :: rest =>
      if counts o ≤ 1 then
        let r := dropArcs fuel (arcFields o ++ rest) (fun x => if x = o then 0 else counts x)
        (r.1, o :: r.2)
      else
        dropArcs fuel rest (fun x => if x = o then counts x - 1 else counts x)

/-- Strong counts once `Context::new` has returned and only the
`Context` remains: `Instance` is held by `Context.instance`,
`Surface._instance` and `Device._instance` (the clone passed to
`Swapchain::new` is not stored); `Surface` by `Context.surface` and
`Swapchain._surface`; `Device` by `Context.device` and
`Swapchain.device`; `Swapchain` by `Context.swapchain` alone. -/
def contextArcCounts : VkObj → Nat
  | .inst => 3
  | .surf => 2
  | .dev => 2
  | .swap => 1

/-- The destruction log of dropping a `Context`: its four `Arc` fields
are dropped in declaration order `instance, surface, device,
swapchain`. -/
def contextDropLog : List VkObj :=
  (dropArcs 16 [VkObj.inst, VkObj.surf, VkObj.dev, VkObj.swap] contextArcCounts).2

end Urbrs

namespace Urbrs

/-! ## Helper lemmas on lists of indices -/

/-- Recursive form of `get_queue_families_with_flag`, carrying the next
index `k`. -/
def gqfAux (flag : QueueFamilyProps → Bool) : List QueueFamilyProps → Nat → List Nat
  | [], _ => []
  | f :: rest, k =>
    if flag f then k :: gqfAux flag rest (k + 1) else gqfAux flag rest (k + 1)

theorem enumFrom_filter_map_eq_gqfAux (flag : QueueFamilyProps → Bool) :
    ∀ (l : List QueueFamilyProps) (k : Nat),
      ((List.enumFrom k l).filter (fun p => flag p.2)).map Prod.fst = gqfAux flag l k := by
  intro l
  induction l with
  | nil => intro k; rfl
  | cons f rest ih =>
    intro k
    by_cases h : flag f <;> simp [List.enumFrom, gqfAux, h, ih]

theorem gqf_eq_gqfAux (families : List QueueFamilyProps) (flag : QueueFamilyProps → Bool) :
    get_queue_families_with_flag families flag = gqfAux flag families 0 := by
  rw [get_queue_families_with_flag, List.enum, enumFrom_filter_map_eq_gqfAux]

theorem mem_gqfAux (flag : QueueFamilyProps → Bool) :
    ∀ (l : List QueueFamilyProps) (k i : Nat),
      i ∈ gqfAux flag l k ↔ ∃ j f, l[j]? = some f ∧ flag f = true ∧ i = k + j := by
  intro l
  induction l with
  | nil => intro k i; simp [gqfAux]
  | cons f rest ih =>
    intro k i
    by_cases h : flag f
    · simp only [gqfAux, h, if_pos, List.mem_cons, ih]
      constructor
      · rintro (rfl | ⟨j, f', hj, hf, rfl⟩)
        · exact ⟨0, f, by simp, h, by omega⟩
        · exact ⟨j + 1, f', by simpa using hj, hf, by omega⟩
      · rintro ⟨j, f', hj, hf, rfl⟩
        cases j with
        | zero =>
          left
          simp at hj
          omega
        | succ j =>
          right
          exact ⟨j, f', by simpa using hj, hf, by omega⟩
    · simp only [gqfAux, h, if_neg, Bool.false_eq_true, not_false_iff, ih]
      constructor
      · rintro ⟨j, f', hj, hf, rfl⟩
        exact ⟨j + 1, f', by simpa using hj, hf, by omega⟩
      · rintro ⟨j, f', hj, hf, rfl⟩
        cases j with
        | zero =>
          simp at hj
          subst hj
          simp [hf] at h
        | succ j =>
          exact ⟨j, f', by simpa using hj, hf, by omega⟩

theorem gqfAux_lb (flag : QueueFamilyProps → Bool) (l : List QueueFamilyProps)
    (k i : Nat) (h : i ∈ gqfAux flag l k) : k ≤ i := by
  obtain ⟨j, f, _, _, rfl⟩ := (mem_gqfAux flag l k i).1 h
  omega

theorem gqfAux_sorted (flag : QueueFamilyProps → Bool) :
    ∀ (l : List QueueFamilyProps) (k : Nat), (gqfAux flag l k).Sorted (· < ·) := by
  intro l
  induction l with
  | nil => intro k; simp [gqfAux]
  | cons f rest ih =>
    intro k
    by_cases h : flag f
    · simp only [gqfAux, h, if_pos]
      refine List.sorted_cons.mpr ⟨fun b hb => ?_, ih (k + 1)⟩
      have := gqfAux_lb flag rest (k + 1) b hb
      omega
    · simpa [gqfAux, h] using ih (k + 1)

theorem head?_min_of_sorted (l : List Nat) (hs : l.Sorted (· < ·)) (a : Nat)
    (h : l.head? = some a) : ∀ b ∈ l, a ≤ b := by
  cases l with
  | nil => cases h
  | cons x t =>
    simp only [List.head?_cons, Option.some.injEq] at h
    subst h
    intro b hb
    rcases List.mem_cons.mp hb with rfl | hb
    · exact Nat.le_refl _
    · exact Nat.le_of_lt ((List.sorted_cons.mp hs).1 b hb)

theorem getLast?_cons_or (a : Nat) (t : List Nat) :
    (a :: t).getLast? = t.getLast?.or (some a) := by
  induction t generalizing a with
  | nil => rfl
  | cons x t' ih =>
    rw [List.getLast?_cons_cons, ih x]
    rcases ht : t'.getLast? with _ | y <;> simp [ht]

theorem getLast?_eq_none_iff_nil (l : List Nat) : l.getLast? = none ↔ l = [] := by
  cases l with
  | nil => simp
  | cons a t =>
    rw [getLast?_cons_or]
    rcases ht : t.getLast? with _ | y <;> simp [ht]

theorem getLast?_max_of_sorted (l : List Nat) (hs : l.Sorted (· < ·)) (a : Nat)
    (h : l.getLast? = some a) : a ∈ l ∧ ∀ b ∈ l, b ≤ a := by
  induction l with
  | nil => cases h
  | cons x t ih =>
    rcases ht : t.getLast? with _ | y
    · have : t = [] := (getLast?_eq_none_iff_nil t).1 ht
      subst this
      simp only [List.getLast?_singleton, Option.some.injEq] at h
      subst h
      simp
    · rw [getLast?_cons_or, ht] at h
      simp only [Option.or_some, Option.some.injEq] at h
      subst h
      have hts : t.Sorted (· < ·) := (List.sorted_cons.mp hs).2
      obtain ⟨hmem, hmax⟩ := ih hts ht
      refine ⟨List.mem_cons_of_mem x hmem, fun b hb => ?_⟩
      rcases List.mem_cons.mp hb with rfl | hb
      · exact Nat.le_of_lt ((List.sorted_cons.mp hs).1 _ hmem)
      · exact hmax b hb

theorem getLast?_eq_some_of_max (l : List Nat) (hs : l.Sorted (· < ·)) (a : Nat)
    (hmem : a ∈ l) (hmax : ∀ b ∈ l, b ≤ a) : l.getLast? = some a := by
  rcases hl : l.getLast? with _ | y
  · rw [getLast?_eq_none_iff_nil] at hl
    subst hl
    cases hmem
  · obtain ⟨hymem, hymax⟩ := getLast?_max_of_sorted l hs y hl
    have h1 : a ≤ y := hymax a hmem
    have h2 : y ≤ a := hmax y hymem
    have hya : y = a := Nat.le_antisymm h2 h1
    rw [hya]

theorem or_some_absorb (a : Option Nat) (i : Nat) (acc : Option Nat) :
    (a.or (some i)).or acc = a.or (some i) := by
  cases a <;> rfl

theorem or_none_eq (a : Option Nat) : a.or none = a := by
  cases a <;> rfl

/-- Closed form of the present-family loop: the early return fires iff
the graphics family occurs in the remaining index list and can present;
otherwise the result is the last present-capable index, falling back to
the accumulator. -/
theorem selectPresentGo_spec (c : Nat → Bool) (g : Nat) :
    ∀ (l : List Nat) (acc : Option Nat),
      selectPresentGo c g l acc =
        if g ∈ l ∧ c g = true then some g else ((l.filter c).getLast?).or acc := by
  intro l
  induction l with
  | nil => intro acc; simp [selectPresentGo]
  | cons i rest ih =>
    intro acc
    rw [selectPresentGo]
    by_cases hc : c i = true
    · rw [if_pos hc]
      by_cases hg : g = i
      · subst hg
        rw [if_pos rfl, if_pos ⟨List.mem_cons_self g rest, hc⟩]
      · rw [if_neg hg, ih]
        by_cases hm : g ∈ rest ∧ c g = true
        · rw [if_pos hm, if_pos ⟨List.mem_cons_of_mem i hm.1, hm.2⟩]
        · have hm2 : ¬(g ∈ i :: rest ∧ c g = true) := by
            rintro ⟨hmem, hcg⟩
            rcases List.mem_cons.mp hmem with rfl | hmem2
            · exact hg rfl
            · exact hm ⟨hmem2, hcg⟩
          rw [if_neg hm, if_neg hm2, List.filter_cons_of_pos hc,
            getLast?_cons_or, or_some_absorb]
    · rw [if_neg hc, ih]
      by_cases hm : g ∈ rest ∧ c g = true
      · rw [if_pos hm, if_pos ⟨List.mem_cons_of_mem i hm.1, hm.2⟩]
      · have hm2 : ¬(g ∈ i :: rest ∧ c g = true) := by
          rintro ⟨hmem, hcg⟩
          rcases List.mem_cons.mp hmem with rfl | hmem2
          · exact hc hcg
          · exact hm ⟨hmem2, hcg⟩
        rw [if_neg hm, if_neg hm2, List.filter_cons_of_neg (by simpa using hc)]

/-- Closed form of `select_present_family` over the full index range. -/
theorem select_present_family_eq (c : Nat → Bool) (n g : Nat) :
    PhysicalDevice.select_present_family c n g =
      if g ∈ List.range n ∧ c g = true then some g
      else ((List.range n).filter c).getLast? := by
  rw [PhysicalDevice.select_present_family, selectPresentGo_spec]
  split_ifs with h
  · rfl
  · rw [or_none_eq]

/-! ## Theorems -/

/-- C1 counterexample: three queue families, graphics family 2, where
families 0 and 1 can present and family 2 cannot.  The claim demands
the first (lowest-index) present-capable family, 0; the loop in the source
overwrites its fallback on every present-capable index and returns the
last one, 1. -/
theorem c1_present_family_counterexample :
    (fun i => decide (i < 2)) 0 = true ∧
    (fun i => decide (i < 2)) 2 = false ∧
    PhysicalDevice.select_present_family (fun i => decide (i < 2)) 3 2 = some 1 ∧
    PhysicalDevice.select_present_family (fun i => decide (i < 2)) 3 2 ≠ some 0 := by
  refine ⟨rfl, rfl, ?_, ?_⟩ <;> decide

/-- C1 (amended): `select_present_family` returns the graphics family
whenever it is in range and can present; otherwise it returns the
**last** (highest-index) queue family that can present — characterized
as the present-capable index in range after which no further index can
present; and it returns no family exactly when no queue family in range
can present. -/
theorem c1_select_present_family (c : Nat → Bool) (n g : Nat) :
    (g < n → c g = true → PhysicalDevice.select_present_family c n g = some g) ∧
    (¬(g < n ∧ c g = true) →
      ∀ m, PhysicalDevice.select_present_family c n g = some m ↔
        (m < n ∧ c m = true ∧ ∀ j, m < j → j < n → c j = false)) ∧
    (PhysicalDevice.select_present_family c n g = none ↔ ∀ i, i < n → c i = false) := by
  have sorted : ((List.range n).filter c).Sorted (· < ·) :=
    (List.sorted_lt_range n).sublist (List.filter_sublist _)
  have hmem : ∀ m, m ∈ (List.range n).filter c ↔ m < n ∧ c m = true := by
    intro m
    simp [List.mem_filter, List.mem_range, and_comm]
  refine ⟨?_, ?_, ?_⟩
  · intro h1 h2
    rw [select_present_family_eq]
    simp [List.mem_range, h1, h2]
  · intro hng m
    rw [select_present_family_eq,
      if_neg (by simpa [List.mem_range] using hng)]
    constructor
    · intro h
      obtain ⟨hm, hmax⟩ := getLast?_max_of_sorted _ sorted m h
      obtain ⟨hm1, hm2⟩ := (hmem m).1 hm
      refine ⟨hm1, hm2, fun j hj1 hj2 => ?_⟩
      by_contra hcj
      have hjmem : j ∈ (List.range n).filter c :=
        (hmem j).2 ⟨hj2, by simpa using hcj⟩
      have := hmax j hjmem
      omega
    · rintro ⟨hm1, hm2, hlast⟩
      apply getLast?_eq_some_of_max _ sorted
      · exact (hmem m).2 ⟨hm1, hm2⟩
      · intro b hb
        obtain ⟨hb1, hb2⟩ := (hmem b).1 hb
        by_contra hbm
        have := hlast b (by omega) hb1
        rw [this] at hb2
        cases hb2
  · rw [select_present_family_eq]
    constructor
    · intro h
      by_cases hcond : g ∈ List.range n ∧ c g = true
      · rw [if_pos hcond] at h
        cases h
      · rw [if_neg hcond] at h
        have hnil := (getLast?_eq_none_iff_nil _).1 h
        intro i hi
        by_contra hci
        have : i ∈ (List.range n).filter c :=
          (hmem i).2 ⟨hi, by simpa using hci⟩
        rw [hnil] at this
        cases this
    · intro hall
      have hcond : ¬(g ∈ List.range n ∧ c g = true) := by
        rintro ⟨hg, hcg⟩
        have := hall g (List.mem_range.mp hg)
        rw [this] at hcg
        cases hcg
      rw [if_neg hcond]
      have : (List.range n).filter c = [] :=
        List.eq_nil_iff_forall_not_mem.2 (fun a ha => by
          obtain ⟨ha1, ha2⟩ := (hmem a).1 ha
          have := hall a ha1
          rw [this] at ha2
          cases ha2)
      rw [this]
      rfl

/-- C1 witness: with two families that can both present and graphics
family 0, `c1_select_present_family` yields the graphics family. -/
theorem c1_select_present_family_witness :
    PhysicalDevice.select_present_family (fun _ => true) 2 0 = some 0 :=
  (c1_select_present_family (fun _ => true) 2 0).1 (by decide) rfl

/-- C9: `select_transfer_family` returns the first (lowest-index)
transfer-capable queue family whose index differs from the graphics
family — i.e. the result is transfer-capable, differs from the graphics
index, and every strictly smaller transfer-capable index is the
graphics index — and it returns the graphics family index when no
transfer-capable family other than the graphics one exists. -/
theorem c9_select_transfer_family (families : List QueueFamilyProps) (g : Nat) :
    ((∃ i, hasFlagAt families (fun f => f.transfer) i ∧ i ≠ g) →
      hasFlagAt families (fun f => f.transfer)
          (PhysicalDevice.select_transfer_family families g) ∧
        PhysicalDevice.select_transfer_family families g ≠ g ∧
        ∀ j, j < PhysicalDevice.select_transfer_family families g →
          hasFlagAt families (fun f => f.transfer) j → j = g) ∧
    ((∀ i, hasFlagAt families (fun f => f.transfer) i → i = g) →
      PhysicalDevice.select_transfer_family families g = g) := by
  have key : PhysicalDevice.select_transfer_family families g =
      ((gqfAux (fun f => f.transfer) families 0).filter (fun f => f != g)).head?.getD g := by
    rw [PhysicalDevice.select_transfer_family, gqf_eq_gqfAux]
  have mem_L : ∀ i,
      i ∈ (gqfAux (fun f => f.transfer) families 0).filter (fun f => f != g) ↔
        hasFlagAt families (fun f => f.transfer) i ∧ i ≠ g := by
    intro i
    rw [List.mem_filter]
    constructor
    · rintro ⟨hmem, hne⟩
      obtain ⟨j, f, hj, hf, hij⟩ := (mem_gqfAux _ _ _ _).1 hmem
      have : j = i := by omega
      subst this
      exact ⟨⟨f, hj, hf⟩, by simpa using hne⟩
    · rintro ⟨⟨f, hj, hf⟩, hne⟩
      exact ⟨(mem_gqfAux _ _ _ _).2 ⟨i, f, hj, hf, (Nat.zero_add i).symm⟩,
        by simpa using hne⟩
  have sorted_L :
      ((gqfAux (fun f => f.transfer) families 0).filter (fun f => f != g)).Sorted (· < ·) :=
    (gqfAux_sorted _ families 0).sublist (List.filter_sublist _)
  constructor
  · rintro ⟨i, hi, hig⟩
    have hiL := (mem_L i).2 ⟨hi, hig⟩
    rcases hLcase : (gqfAux (fun f => f.transfer) families 0).filter (fun f => f != g)
      with _ | ⟨x, t⟩
    · rw [hLcase] at hiL
      cases hiL
    · have hhead :
          ((gqfAux (fun f => f.transfer) families 0).filter (fun f => f != g)).head? =
            some x := by
        rw [hLcase]
        rfl
      have hxL := (mem_L x).1 (by rw [hLcase]; exact List.mem_cons_self x t)
      have hr : PhysicalDevice.select_transfer_family families g = x := by
        rw [key, hhead]
        rfl
      rw [hr]
      refine ⟨hxL.1, hxL.2, fun j hj hjT => ?_⟩
      by_contra hjg
      have hjL := (mem_L j).2 ⟨hjT, hjg⟩
      have := head?_min_of_sorted _ sorted_L x hhead j hjL
      omega
  · intro hall
    have hnil : (gqfAux (fun f => f.transfer) families 0).filter (fun f => f != g) = [] :=
      List.eq_nil_iff_forall_not_mem.2 (fun a ha => by
        obtain ⟨h1, h2⟩ := (mem_L a).1 ha
        exact h2 (hall a h1))
    rw [key, hnil]
    rfl

/-- C9 witness: family 0 is graphics+transfer, family 1 is a dedicated
transfer family; with graphics family 0, `c9_select_transfer_family`
shows the chosen index is transfer-capable, is not the graphics family,
and no smaller non-graphics index is transfer-capable. -/
theorem c9_select_transfer_family_witness :
    hasFlagAt [⟨true, true⟩, ⟨false, true⟩] (fun f => f.transfer)
        (PhysicalDevice.select_transfer_family [⟨true, true⟩, ⟨false, true⟩] 0) ∧
      PhysicalDevice.select_transfer_family [⟨true, true⟩, ⟨false, true⟩] 0 ≠ 0 ∧
      ∀ j, j < PhysicalDevice.select_transfer_family [⟨true, true⟩, ⟨false, true⟩] 0 →
        hasFlagAt [⟨true, true⟩, ⟨false, true⟩] (fun f => f.transfer) j → j = 0 :=
  (c9_select_transfer_family [⟨true, true⟩, ⟨false, true⟩] 0).1
    ⟨1, ⟨⟨false, true⟩, rfl, rfl⟩, by decide⟩

/-- C2 counterexample: a capability snapshot whose `current_extent` is
`(800, u32::MAX)` is not the "derive from consumer" sentinel extent, yet
`select_swap_extent` does not return it verbatim: it returns the clamped
window size `(100, 50)` instead, because the source tests only the
height component against `u32::MAX`. -/
theorem c2_sentinel_counterexample :
    let caps : SurfaceCaps :=
      { current_extent := { width := 800, height := U32_MAX }
        min_image_extent := { width := 1, height := 1 }
        max_image_extent := { width := 4096, height := 4096 }
        min_image_count := 2, max_image_count := 8 }
    caps.current_extent ≠ sentinelExtent ∧
    Swapchain.select_swap_extent caps { width := 100, height := 50 } =
      { width := 100, height := 50 } ∧
    Swapchain.select_swap_extent caps { width := 100, height := 50 } ≠
      caps.current_extent := by
  refine ⟨?_, ?_, ?_⟩ <;> decide

/-- C2 (amended): `select_swap_extent` derives the extent from the window
exactly when `current_extent.height = u32::MAX` (the source checks only
the height component, which subsumes the full sentinel extent): in that
case it returns the window size clamped component-wise to
`[min_image_extent, max_image_extent]`, and otherwise it returns
`current_extent` verbatim.  In particular the sentinel extent with
window size `(100,50)` under bounds `min=(1,1)`, `max=(4096,4096)`
yields `(100,50)`, and a concrete current extent `(800,600)` is returned
verbatim for every window size. -/
theorem c2_select_swap_extent (caps : SurfaceCaps) (win : Extent2D) :
    (caps.current_extent.height = U32_MAX →
      Swapchain.select_swap_extent caps win =
        { width := clampU32 win.width caps.min_image_extent.width caps.max_image_extent.width
          height := clampU32 win.height caps.min_image_extent.height caps.max_image_extent.height }) ∧
    (caps.current_extent.height ≠ U32_MAX →
      Swapchain.select_swap_extent caps win = caps.current_extent) ∧
    (caps.current_extent = sentinelExtent →
      caps.min_image_extent = { width := 1, height := 1 } →
      caps.max_image_extent = { width := 4096, height := 4096 } →
      win = { width := 100, height := 50 } →
      Swapchain.select_swap_extent caps win = { width := 100, height := 50 }) ∧
    (caps.current_extent = { width := 800, height := 600 } →
      Swapchain.select_swap_extent caps win = { width := 800, height := 600 }) := by
  refine ⟨?_, ?_, ?_, ?_⟩
  · intro h
    simp [Swapchain.select_swap_extent, h]
  · intro h
    simp [Swapchain.select_swap_extent, h]
  · intro hcur hmin hmax hwin
    simp [Swapchain.select_swap_extent, hcur, hmin, hmax, hwin, sentinelExtent,
      clampU32, U32_MAX]
  · intro hcur
    simp [Swapchain.select_swap_extent, hcur, U32_MAX]

/-- C2 witness: instantiation of `c2_select_swap_extent` at the sentinel
snapshot of the claim, discharging the hypotheses concretely. -/
theorem c2_select_swap_extent_witness :
    Swapchain.select_swap_extent
      { current_extent := sentinelExtent
        min_image_extent := { width := 1, height := 1 }
        max_image_extent := { width := 4096, height := 4096 }
        min_image_count := 2, max_image_count := 8 }
      { width := 100, height := 50 } = { width := 100, height := 50 } :=
  (c2_select_swap_extent _ _).2.2.1 rfl rfl rfl rfl

/-- C7: `select_image_count` returns `min_image_count + 1` clamped from
above by `max_image_count`, except that a `max_image_count` of 0 means
unlimited and no clamping happens; in particular min=2,max=8 gives 3;
min=2,max=0 gives 3; min=8,max=8 gives 8. -/
theorem c7_select_image_count (caps : SurfaceCaps) :
    (caps.max_image_count = 0 →
      Swapchain.select_image_count caps = caps.min_image_count + 1) ∧
    (caps.max_image_count ≠ 0 →
      Swapchain.select_image_count caps =
        min (caps.min_image_count + 1) caps.max_image_count) ∧
    (caps.min_image_count = 2 → caps.max_image_count = 8 →
      Swapchain.select_image_count caps = 3) ∧
    (caps.min_image_count = 2 → caps.max_image_count = 0 →
      Swapchain.select_image_count caps = 3) ∧
    (caps.min_image_count = 8 → caps.max_image_count = 8 →
      Swapchain.select_image_count caps = 8) := by
  refine ⟨?_, ?_, ?_, ?_, ?_⟩
  · intro h; simp [Swapchain.select_image_count, h]
  · intro h; simp [Swapchain.select_image_count, h]
  · intro h1 h2; simp [Swapchain.select_image_count, h1, h2]
  · intro h1 h2; simp [Swapchain.select_image_count, h1, h2]
  · intro h1 h2; simp [Swapchain.select_image_count, h1, h2]

/-- C7 witness: `c7_select_image_count` applied at the concrete snapshot
min=2, max=8, giving image count 3. -/
theorem c7_select_image_count_witness :
    Swapchain.select_image_count
      { current_extent := { width := 800, height := 600 }
        min_image_extent := { width := 1, height := 1 }
        max_image_extent := { width := 4096, height := 4096 }
        min_image_count := 2, max_image_count := 8 } = 3 :=
  (c7_select_image_count _).2.2.1 rfl rfl

/-- C3: `update_mapped_data` rejects any payload whose byte length
(`data.len() * size_of::<T>()`) differs from the declared capacity with
the size-mismatch error, before any memory is touched — the buffer
(allocation state and mapped contents) is returned unchanged whatever
its allocation state; and on an allocated (host-visible, hence mapped)
buffer a payload of exactly the declared capacity succeeds. -/
theorem c3_update_mapped_data (b : Buffer) (data_len t_size : Nat) (bytes : List Nat) :
    (data_len * t_size ≠ b.size →
      Buffer.update_mapped_data b data_len t_size bytes = (b, .err .sizeMismatch)) ∧
    (∀ alloc m, data_len * t_size = b.size → b.allocation = some alloc →
      alloc.mapped = some m →
      (Buffer.update_mapped_data b data_len t_size bytes).2 = .ok) := by
  constructor
  · intro h
    simp [Buffer.update_mapped_data, h]
  · intro alloc m hsize halloc hmapped
    simp [Buffer.update_mapped_data, hsize, halloc, hmapped]

/-- C3 witness: an allocated 4-byte buffer. A 2-element payload of
2-byte elements (exactly 4 bytes) succeeds; a 3-element payload (6
bytes) is rejected with the size-mismatch error leaving the buffer
unchanged. -/
theorem c3_update_mapped_data_witness :
    (Buffer.update_mapped_data
        (Buffer.allocate (Buffer.new 4) { mapped := some [0, 0, 0, 0] })
        2 2 [9, 9, 9, 9]).2 = .ok ∧
    Buffer.update_mapped_data
        (Buffer.allocate (Buffer.new 4) { mapped := some [0, 0, 0, 0] })
        3 2 [9, 9, 9, 9, 9, 9] =
      (Buffer.allocate (Buffer.new 4) { mapped := some [0, 0, 0, 0] },
        .err .sizeMismatch) :=
  ⟨(c3_update_mapped_data _ 2 2 _).2 _ [0, 0, 0, 0] rfl rfl rfl,
    (c3_update_mapped_data _ 3 2 _).1 (by decide)⟩

/-- C10: on a buffer with no bound allocation `update_mapped_data`
returns an error and leaves the buffer (hence all memory) unchanged;
and since the size check precedes the allocation check, when the
payload byte length also differs from the capacity the error is the
size-mismatch error, while a payload of exactly the capacity gets the
unallocated-buffer error. -/
theorem c10_update_unallocated (b : Buffer) (data_len t_size : Nat) (bytes : List Nat) :
    (b.allocation = none →
      (Buffer.update_mapped_data b data_len t_size bytes).1 = b ∧
      ∃ e, (Buffer.update_mapped_data b data_len t_size bytes).2 = .err e) ∧
    (b.allocation = none → data_len * t_size ≠ b.size →
      Buffer.update_mapped_data b data_len t_size bytes = (b, .err .sizeMismatch)) ∧
    (b.allocation = none → data_len * t_size = b.size →
      Buffer.update_mapped_data b data_len t_size bytes = (b, .err .unallocated)) := by
  refine ⟨?_, ?_, ?_⟩
  · intro halloc
    by_cases h : data_len * t_size = b.size
    · simp [Buffer.update_mapped_data, h, halloc]
    · simp [Buffer.update_mapped_data, h, halloc]
  · intro _ h
    simp [Buffer.update_mapped_data, h]
  · intro halloc h
    simp [Buffer.update_mapped_data, h, halloc]

/-- C10 witness: a never-allocated 4-byte buffer. A 6-byte payload gets
the size-mismatch error (precedence), a 4-byte payload the
unallocated-buffer error; both leave the buffer unchanged. -/
theorem c10_update_unallocated_witness :
    Buffer.update_mapped_data (Buffer.new 4) 3 2 [9, 9, 9, 9, 9, 9] =
      (Buffer.new 4, .err .sizeMismatch) ∧
    Buffer.update_mapped_data (Buffer.new 4) 2 2 [9, 9, 9, 9] =
      (Buffer.new 4, .err .unallocated) :=
  ⟨(c10_update_unallocated (Buffer.new 4) 3 2 _).2.1 rfl (by decide),
    (c10_update_unallocated (Buffer.new 4) 2 2 _).2.2 rfl rfl⟩

/-- C5: `build` fails with a distinct error for each of the five
failure cases, and reports only the first missing field in the order
vertex shader, fragment shader, color format, depth format; in
particular a builder missing only the fragment shader gets the
fragment-shader-specific error. -/
theorem c5_pipeline_build (b : PipelineBuilder) (dev : DeviceOracle) :
    [PipelineBuildError.noVertexShader, .noFragmentShader, .noColorFormat,
        .noDepthFormat, .vk 0].Nodup ∧
    (b.vertex_shader_data = none →
      b.build dev = .error .noVertexShader) ∧
    (∀ v, b.vertex_shader_data = some v → b.fragment_shader_data = none →
      b.build dev = .error .noFragmentShader) ∧
    (∀ v f code, b.vertex_shader_data = some v → b.fragment_shader_data = some f →
      dev.create_shader_module v = .error code →
      b.build dev = .error (.vk code)) ∧
    (∀ v f mv mf, b.vertex_shader_data = some v → b.fragment_shader_data = some f →
      dev.create_shader_module v = .ok mv → dev.create_shader_module f = .ok mf →
      b.color_format = none →
      b.build dev = .error .noColorFormat) ∧
    (∀ v f mv mf cf, b.vertex_shader_data = some v → b.fragment_shader_data = some f →
      dev.create_shader_module v = .ok mv → dev.create_shader_module f = .ok mf →
      b.color_format = some cf → b.depth_format = none →
      b.build dev = .error .noDepthFormat) := by
  refine ⟨by decide, ?_, ?_, ?_, ?_, ?_⟩
  · intro h
    simp [PipelineBuilder.build, h]
  · intro v hv hf
    simp [PipelineBuilder.build, hv, hf]
  · intro v f code hv hf hc
    simp [PipelineBuilder.build, hv, hf, hc]
  · intro v f mv mf hv hf hcv hcf hcol
    simp [PipelineBuilder.build, hv, hf, hcv, hcf, hcol]
  · intro v f mv mf cf hv hf hcv hcf hcol hdep
    simp [PipelineBuilder.build, hv, hf, hcv, hcf, hcol, hdep]

/-- C5 witness: with a device whose calls all succeed, a builder that
has a vertex shader (and even both formats) but no fragment shader
fails with the fragment-shader-specific error. -/
theorem c5_pipeline_build_witness :
    ((((PipelineBuilder.new.with_vertex_shader_data [1]).with_color_format 7).with_depth_format
          8).build
        { create_shader_module := fun _ => .ok 0
          create_pipeline_layout := .ok 0
          create_graphics_pipelines := .ok 0 }) =
      .error .noFragmentShader :=
  (c5_pipeline_build _ _).2.2.1 [1] rfl rfl

/-- C6: the unsupported-extension list contains exactly the required
extensions that are unavailable (the complete set, not only the first);
instance creation fails with exactly that list whenever it is
non-empty, and succeeds when every required extension is available
(given that the remaining setup steps — validation layers and the two
driver calls — succeed). -/
theorem c6_instance_extensions (required supported : List String)
    (validation_enabled : Bool) (required_layers available_layers : List String)
    (hlayers : validation_enabled = true →
      Instance.get_unsupported_validation_layers required_layers available_layers = []) :
    (∀ x, x ∈ Instance.get_unsupported_instance_extensions required supported ↔
      (x ∈ required ∧ x ∉ supported)) ∧
    (Instance.get_unsupported_instance_extensions required supported ≠ [] →
      Instance.new required supported validation_enabled required_layers
          available_layers (.ok ()) (.ok ()) =
        .error (.unsupportedExtensions
          (Instance.get_unsupported_instance_extensions required supported))) ∧
    ((∀ r ∈ required, r ∈ supported) →
      Instance.new required supported validation_enabled required_layers
          available_layers (.ok ()) (.ok ()) =
        .ok { validation_enabled := validation_enabled }) := by
  have hchar : ∀ x, x ∈ Instance.get_unsupported_instance_extensions required supported ↔
      (x ∈ required ∧ x ∉ supported) := by
    intro x
    simp only [Instance.get_unsupported_instance_extensions, List.mem_filter,
      Option.isNone_iff_eq_none, List.find?_eq_none, beq_iff_eq]
    constructor
    · rintro ⟨h1, h2⟩
      exact ⟨h1, fun hc => h2 x hc rfl⟩
    · rintro ⟨h1, h2⟩
      refine ⟨h1, fun e he hx => ?_⟩
      rw [hx] at h2
      exact h2 he
  refine ⟨hchar, ?_, ?_⟩
  · intro hne
    have hpos : 0 < (Instance.get_unsupported_instance_extensions required supported).length :=
      List.length_pos.mpr hne
    simp [Instance.new, hpos]
  · intro hsup
    have hnil : Instance.get_unsupported_instance_extensions required supported = [] :=
      List.eq_nil_iff_forall_not_mem.mpr (fun a ha => ((hchar a).1 ha).2 (hsup a ((hchar a).1 ha).1))
    cases hv : validation_enabled with
    | false => simp [Instance.new, hnil]
    | true => simp [Instance.new, hnil, hlayers hv]

/-- C6 witness: required extensions {A, B} with only {A} available fail
with unsupported set exactly {B} (the complete set, not a partial
list), via `c6_instance_extensions`. -/
theorem c6_instance_extensions_witness :
    Instance.new ["A", "B"] ["A"] false [] [] (.ok ()) (.ok ()) =
      .error (.unsupportedExtensions ["B"]) := by
  have h := (c6_instance_extensions ["A", "B"] ["A"] false [] []
    (fun hc => absurd hc (by decide))).2.1
  have he : Instance.get_unsupported_instance_extensions ["A", "B"] ["A"] = ["B"] := rfl
  rw [he] at h
  exact h (by simp)

/-- C8: the renderer is built with exactly `FRAMES_IN_FLIGHT = 3` frame
slots and `frame_idx = 0`; the ring is fixed (`render` never changes
the slot list); from any in-range state a completed `render` advances
`frame_idx` by exactly one modulo 3, a failed `render` leaves the whole
state unchanged, and the index stays in `[0, 3)`; hence after `n`
completed submissions the slot index is `n % 3`, i.e. the sequence
`0,1,2,0,1,2,…`. -/
theorem c8_frame_ring :
    FRAMES_IN_FLIGHT = 3 ∧
    Renderer.new.frames.length = 3 ∧
    Renderer.new.frame_idx = 0 ∧
    (∀ st b e, (Renderer.render st b e).1.frames = st.frames) ∧
    (∀ (st : RendererSt) (b e : Bool), st.frame_idx < 3 →
      ((Renderer.render st b e).2 = .ok () →
        (Renderer.render st b e).1.frame_idx = (st.frame_idx + 1) % 3) ∧
      ((Renderer.render st b e).2 ≠ .ok () → (Renderer.render st b e).1 = st) ∧
      (Renderer.render st b e).1.frame_idx < 3) ∧
    (∀ n, (renderTrace n).frame_idx = n % 3) := by
  have hframes : ∀ st b e, (Renderer.render st b e).1.frames = st.frames := by
    intro st b e
    cases hlook : st.frames[st.frame_idx]? <;> cases b <;> cases e <;>
      simp [Renderer.render, hlook]
  have hstep : ∀ (st : RendererSt) (b e : Bool), st.frame_idx < 3 →
      ((Renderer.render st b e).2 = .ok () →
        (Renderer.render st b e).1.frame_idx = (st.frame_idx + 1) % 3) ∧
      ((Renderer.render st b e).2 ≠ .ok () → (Renderer.render st b e).1 = st) ∧
      (Renderer.render st b e).1.frame_idx < 3 := by
    intro st b e hidx
    cases hlook : st.frames[st.frame_idx]? with
    | none =>
      refine ⟨fun h => ?_, fun _ => ?_, ?_⟩
      · simp [Renderer.render, hlook] at h
      · simp [Renderer.render, hlook]
      · simpa [Renderer.render, hlook] using hidx
    | some u =>
      cases b with
      | false =>
        refine ⟨fun h => ?_, fun _ => ?_, ?_⟩
        · simp [Renderer.render, hlook] at h
        · simp [Renderer.render, hlook]
        · simpa [Renderer.render, hlook] using hidx
      | true =>
        cases e with
        | false =>
          refine ⟨fun h => ?_, fun _ => ?_, ?_⟩
          · simp [Renderer.render, hlook] at h
          · simp [Renderer.render, hlook]
          · simpa [Renderer.render, hlook] using hidx
        | true =>
          refine ⟨fun _ => ?_, fun h => ?_, ?_⟩
          · simp [Renderer.render, hlook, FRAMES_IN_FLIGHT]
          · exact absurd (by simp [Renderer.render, hlook]) h
          · simp only [Renderer.render, hlook, FRAMES_IN_FLIGHT]
            simp
            omega
  have htrace_frames : ∀ n, (renderTrace n).frames = Renderer.new.frames := by
    intro n
    induction n with
    | zero => rfl
    | succ n ih => rw [renderTrace, hframes, ih]
  have htrace : ∀ n, (renderTrace n).frame_idx = n % 3 := by
    intro n
    induction n with
    | zero => rfl
    | succ n ih =>
      have hidx : (renderTrace n).frame_idx < 3 := by rw [ih]; omega
      have hlook : (renderTrace n).frames[(renderTrace n).frame_idx]? = some () := by
        rw [htrace_frames n]
        have h3 : Renderer.new.frames = [(), (), ()] := rfl
        rw [h3]
        rcases hm : (renderTrace n).frame_idx with _ | _ | _ | m
        · rfl
        · rfl
        · rfl
        · rw [hm] at hidx
          exact absurd hidx (by omega)
      rw [renderTrace]
      simp [Renderer.render, hlook, FRAMES_IN_FLIGHT]
      rw [ih]
      omega
  exact ⟨rfl, rfl, rfl, hframes, hstep, htrace⟩

/-- C8 witness: from the freshly constructed renderer (index 0 < 3), a
completed render advances the index to `(0 + 1) % 3`, and after 7
completed submissions the index is `7 % 3`. -/
theorem c8_frame_ring_witness :
    Renderer.new.frame_idx < 3 ∧
    (Renderer.render Renderer.new true true).1.frame_idx =
      (Renderer.new.frame_idx + 1) % 3 ∧
    (renderTrace 7).frame_idx = 7 % 3 :=
  ⟨by decide,
    (c8_frame_ring.2.2.2.2.1 Renderer.new true true (by decide)).1 rfl,
    c8_frame_ring.2.2.2.2.2 7⟩

/-- C4: dropping a fully-constructed `Context` (the only remaining
holder of its four `Arc`s) produces the destruction order Swapchain,
Device, Surface, Instance; and no object is destroyed before every
object holding an `Arc` to it (depending on its handle) has been
destroyed. -/
theorem c4_context_teardown :
    contextDropLog = [VkObj.swap, VkObj.dev, VkObj.surf, VkObj.inst] ∧
    ∀ holder held, held ∈ arcFields holder →
      contextDropLog.indexOf holder < contextDropLog.indexOf held := by
  constructor
  · decide
  · decide

end Urbrs
